import Mathlib

/-!
Verification of the density-estimator contract and tutorial pipeline of the
`sbi` tutorial notebook `docs/tutorials/03_density_estimators.ipynb`.

The notebook itself only calls into the `sbi` library; the `DensityEstimator`
interface it documents (`log_prob`, `loss`, `sample`, two-phase construction,
error surface) is modelled here from the specification, while the notebook's
own code (the linear-Gaussian simulator and the `BoxUniform` prior) is
embedded directly.  Scalars are rationals where the properties are about
shapes, errors and state, and reals for the numerical-integration property.
-/

namespace SbiDensity

/-- Modelled from the spec: the error surface of the density-estimator
contract (spec section 7).  The implementation of the estimator classes is
not part of the source material; the three error kinds are taken verbatim
from the spec. -/
inductive EstimatorError where
  | DimensionMismatch
  | UnsupportedOperation
  | NotInitialized
deriving DecidableEq, Repr

/-- Modelled from the spec: a constructed density estimator instance
(spec section 3).  It owns fixed input/condition dimensionality, the
data-dependent normalization fixed at construction, the learned parameters
(mutated only by training), and the family's behaviour: a per-row
log-density, a per-row loss, and a per-coordinate sampler (the `sample`
operation assembles outputs of the fixed output dimensionality from it).
`supportsSampling` is false for families that support evaluation but not
exact sampling. -/
structure DensityEstimator where
  inputDim : ℕ
  condDim : ℕ
  normShift : List ℚ
  normScale : List ℚ
  params : List ℚ
  supportsSampling : Bool
  logProbFun : List ℚ → List ℚ → List ℚ → ℚ
  lossFun : List ℚ → List ℚ → List ℚ → ℚ
  sampleCoord : List ℚ → ℕ → List ℚ → ℕ → ℚ

/-- Modelled from the spec: the lifecycle state of the estimator component,
"constructed → trained(0..n times) → queryable" with an explicit
uninitialized phase before the dimension-fixing construction step. -/
inductive EstimatorState where
  | uninitialized
  | constructed (est : DensityEstimator)

/-- Every row of the batch has the given feature dimensionality. -/
def rowsOk (dim : ℕ) (rows : List (List ℚ)) : Bool :=
  rows.all (fun r => r.length == dim)

/-- Modelled from the spec: the `log_prob` computation of a constructed
estimator.  Paired batches of equal length are zipped row by row; a batched
input against a single condition broadcasts the condition; any other batch
pairing, or a feature-dimensionality disagreement, is a
`DimensionMismatch`. -/
def logProbRun (est : DensityEstimator) (input condition : List (List ℚ)) :
    Except EstimatorError (List ℚ) :=
  if rowsOk est.inputDim input && rowsOk est.condDim condition then
    if input.length = condition.length then
      .ok (List.zipWith (fun i c => est.logProbFun est.params i c) input condition)
    else if condition.length = 1 then
      .ok (input.map (fun i => est.logProbFun est.params i condition.headI))
    else
      .error .DimensionMismatch
  else
    .error .DimensionMismatch

/-- Modelled from the spec: the `loss` computation of a constructed
estimator; during training the batch dimension of input and condition must
agree. -/
def lossRun (est : DensityEstimator) (input condition : List (List ℚ)) :
    Except EstimatorError (List ℚ) :=
  if rowsOk est.inputDim input && rowsOk est.condDim condition then
    if input.length = condition.length then
      .ok (List.zipWith (fun i c => est.lossFun est.params i c) input condition)
    else
      .error .DimensionMismatch
  else
    .error .DimensionMismatch

/-- Modelled from the spec: the `sample` computation of a constructed
estimator: `count` independent outputs, each of the estimator's output
dimensionality, drawn conditioned on a single condition row.  Families
without direct sampling fail with `UnsupportedOperation`. -/
def sampleRun (est : DensityEstimator) (count : ℕ) (condition : List ℚ) :
    Except EstimatorError (List (List ℚ)) :=
  if est.supportsSampling then
    if condition.length = est.condDim then
      .ok ((List.range count).map (fun k =>
        (List.range est.inputDim).map (est.sampleCoord est.params k condition)))
    else
      .error .DimensionMismatch
  else
    .error .UnsupportedOperation

/-- Modelled from the spec: the `log_prob` operation of the interface.
Invoked before construction it surfaces `NotInitialized`; it returns its
result together with the (unchanged) estimator state. -/
def log_prob (st : EstimatorState) (input condition : List (List ℚ)) :
    Except EstimatorError (List ℚ) × EstimatorState :=
  match st with
  | .uninitialized => (.error .NotInitialized, .uninitialized)
  | .constructed est => (logProbRun est input condition, .constructed est)

/-- Modelled from the spec: the `loss` operation of the interface. -/
def loss (st : EstimatorState) (input condition : List (List ℚ)) :
    Except EstimatorError (List ℚ) × EstimatorState :=
  match st with
  | .uninitialized => (.error .NotInitialized, .uninitialized)
  | .constructed est => (lossRun est input condition, .constructed est)

/-- Modelled from the spec: the `sample` operation of the interface. -/
def sample (st : EstimatorState) (count : ℕ) (condition : List ℚ) :
    Except EstimatorError (List (List ℚ)) × EstimatorState :=
  match st with
  | .uninitialized => (.error .NotInitialized, .uninitialized)
  | .constructed est => (sampleRun est count condition, .constructed est)

/-- A training batch: a list of paired (input, condition) rows. -/
def TrainBatch := List (List ℚ × List ℚ)

/-- Per-feature column sums of a batch of rows (used by the data-dependent
normalization fixed at construction). -/
def colSum (dim : ℕ) (rows : List (List ℚ)) : List ℚ :=
  rows.foldl (fun acc r => List.zipWith (· + ·) acc r) (List.replicate dim 0)

/-- Per-feature means of a batch of rows. -/
def featureMean (dim : ℕ) (rows : List (List ℚ)) : List ℚ :=
  (colSum dim rows).map (fun s => s / rows.length)

/-- Per-feature means of squares of a batch of rows (a rational surrogate
for the standardization scale fixed at construction). -/
def featureMeanSq (dim : ℕ) (rows : List (List ℚ)) : List ℚ :=
  featureMean dim (rows.map (fun r => r.map (fun v => v * v)))

/-- Modelled from the spec: the configuration an uninitialized builder
captures before it has seen any data (spec section 9: an uninitialized
builder capturing configuration, then a finalize step consuming one
batch). -/
structure BuildConfig where
  initParams : List ℚ
  supportsSampling : Bool
  logProbFun : List ℚ → List ℚ → List ℚ → ℚ
  lossFun : List ℚ → List ℚ → List ℚ → ℚ
  sampleCoord : List ℚ → ℕ → List ℚ → ℕ → ℚ

/-- Modelled from the spec: the construction factory step
(`density_estimator_build_fun` in the notebook).  It observes exactly one
batch of (input, condition) pairs, solely to fix the input/condition
dimensionality from the first pair and to initialize the data-dependent
normalization (input standardization statistics) from that batch. -/
def build (cfg : BuildConfig) (batch : TrainBatch) : EstimatorState :=
  match batch with
  | [] => .uninitialized
  | (t0, x0) :: _ =>
      .constructed {
        inputDim := t0.length
        condDim := x0.length
        normShift := featureMean t0.length (batch.map Prod.fst)
        normScale := featureMeanSq t0.length (batch.map Prod.fst)
        params := cfg.initParams
        supportsSampling := cfg.supportsSampling
        logProbFun := cfg.logProbFun
        lossFun := cfg.lossFun
        sampleCoord := cfg.sampleCoord }

/-- Modelled from the spec: one training step.  The external driver supplies
the parameter update; training mutates only the learned parameters of a
constructed estimator. -/
def train (st : EstimatorState) (update : List ℚ → TrainBatch → List ℚ)
    (batch : TrainBatch) : EstimatorState :=
  match st with
  | .uninitialized => .uninitialized
  | .constructed est => .constructed { est with params := update est.params batch }

/-- A full run of the lifecycle: construct from the initial batch, then
train iteratively on the later batches. -/
def runPipeline (cfg : BuildConfig) (update : List ℚ → TrainBatch → List ℚ)
    (initialBatch : TrainBatch) (laterBatches : List TrainBatch) : EstimatorState :=
  laterBatches.foldl (fun st b => train st update b) (build cfg initialBatch)

/-- The construction-determined view of an estimator state: its fixed
dimensionality and its data-dependent normalization. -/
def constructionView (st : EstimatorState) : Option (ℕ × ℕ × List ℚ × List ℚ) :=
  match st with
  | .uninitialized => none
  | .constructed est => some (est.inputDim, est.condDim, est.normShift, est.normScale)

end SbiDensity

namespace SbiTutorial

/-- The tutorial simulator applied to one parameter row: the linear-Gaussian
map `theta + 3.0 + noise * 0.4`, with the elementwise standard-normal draw
`randn_like` supplied as the coordinate stream `gr` (the `j`-th entry of the
row receives `gr j`). -/
def addNoiseRow (gr : ℕ → ℚ) : ℕ → List ℚ → List ℚ
  | _, [] => []
  | j, t :: ts => (t + 3 + gr j * (2/5)) :: addNoiseRow gr (j + 1) ts

/-- The tutorial simulator applied to the rows of a parameter batch starting
at batch index `i`. -/
def simulatorGo (g : ℕ → ℕ → ℚ) : ℕ → List (List ℚ) → List (List ℚ)
  | _, [] => []
  | i, row :: rest => addNoiseRow (g i) 0 row :: simulatorGo g (i + 1) rest

/-- The tutorial simulator `theta + 3.0 + torch.randn_like(theta) * 0.4`:
`g i j` is the standard-normal noise drawn for entry `(i, j)`; since
`randn_like` draws noise of exactly the shape of `theta`, the noise is a
total coordinate stream. -/
def simulator (g : ℕ → ℕ → ℚ) (theta : List (List ℚ)) : List (List ℚ) :=
  simulatorGo g 0 theta

/-- Two batches have the same shape: same batch length and equal row
lengths throughout. -/
def sameShape (a b : List (List ℚ)) : Prop :=
  a.map List.length = b.map List.length

/-- The matching-batch-dimension training invariant checked when theta and
x are appended together as simulations. -/
def appendSimulationsOk (theta x : List (List ℚ)) : Prop :=
  theta.length = x.length

/-- The tutorial prior's lower bound, `-2 * torch.ones(2)`. -/
def priorLow : List ℚ := [-2, -2]

/-- The tutorial prior's upper bound, `2 * torch.ones(2)`. -/
def priorHigh : List ℚ := [2, 2]

/-- One draw from a `BoxUniform(low, high)` prior: the underlying uniform
unit draws `u` (one per dimension, each in `[0, 1]`) are rescaled
componentwise to `low + u * (high - low)`. -/
def boxUniformSample (low high u : List ℚ) : List ℚ :=
  List.zipWith (fun (p : ℚ × ℚ) ui => p.1 + ui * (p.2 - p.1)) (low.zip high) u

end SbiTutorial

namespace SbiReference

/-- Modelled from the spec: the log-density of the low-dimensional reference
family used for the normalization check, the uniform density on the bounded
interval `[c - 2, c + 2]` conditioned on `c`, whose density is the constant
`1/4` on its support. -/
noncomputable def refLogProb (c x : ℝ) : ℝ := Real.log (1 / 4)

/-- The midpoint of the `k`-th of `n` grid cells of the bounded grid over
`[a, b]`. -/
noncomputable def gridPoint (a b : ℝ) (n k : ℕ) : ℝ :=
  a + (k + 1 / 2) * ((b - a) / n)

/-- Numerical integration of `exp (refLogProb c ·)` over the bounded grid
`[c - 2, c + 2]` with `n` cells: the midpoint Riemann sum of the
exponentiated log-density. -/
noncomputable def gridIntegral (c : ℝ) (n : ℕ) : ℝ :=
  ∑ k ∈ Finset.range n,
    Real.exp (refLogProb c (gridPoint (c - 2) (c + 2) n k)) * ((c + 2 - (c - 2)) / n)

end SbiReference

namespace SbiDensity

/-- Helper: indexing a zipWith of equally long lists picks the function of
the two entries. -/
lemma zipWith_getD (f : List ℚ → List ℚ → ℚ) :
    ∀ (l1 l2 : List (List ℚ)) (k : ℕ), k < l1.length → l1.length = l2.length →
      (List.zipWith f l1 l2).getD k 0 = f (l1.getD k []) (l2.getD k []) := by
  intro l1
  induction l1 with
  | nil => intro l2 k hk _; exact absurd hk (by simp)
  | cons a as ih =>
      intro l2 k hk hlen
      cases l2 with
      | nil => exact absurd hlen (by simp)
      | cons b bs =>
          cases k with
          | zero => rfl
          | succ m =>
              have hm : m < as.length := Nat.lt_of_succ_lt_succ hk
              have hlen2 : as.length = bs.length := by simpa using hlen
              simpa using ih bs m hm hlen2

/-- Helper: the success case of the paired-batch rule of logProbRun. -/
lemma logProbRun_paired (est : DensityEstimator) (input condition : List (List ℚ))
    (hlen : input.length = condition.length)
    (hin : rowsOk est.inputDim input = true)
    (hcond : rowsOk est.condDim condition = true) :
    logProbRun est input condition =
      .ok (List.zipWith (fun i c => est.logProbFun est.params i c) input condition) := by
  simp [logProbRun, hin, hcond, hlen]

/-- C1: for every valid pair of (input, condition) batches of equal length N,
log_prob returns exactly N scalar values, the k-th being the log density of
the k-th input row under the density conditioned on the k-th condition
row. -/
theorem log_prob_paired_batches (est : DensityEstimator)
    (input condition : List (List ℚ))
    (hlen : input.length = condition.length)
    (hin : rowsOk est.inputDim input = true)
    (hcond : rowsOk est.condDim condition = true) :
    ∃ vals : List ℚ,
      (log_prob (.constructed est) input condition).1 = .ok vals ∧
      vals.length = input.length ∧
      ∀ k, k < input.length →
        vals.getD k 0 =
          est.logProbFun est.params (input.getD k []) (condition.getD k []) := by
  refine ⟨List.zipWith (fun i c => est.logProbFun est.params i c) input condition,
    ?_, ?_, ?_⟩
  · simpa [log_prob] using logProbRun_paired est input condition hlen hin hcond
  · simp [hlen]
  · intro k hk
    exact zipWith_getD (fun i c => est.logProbFun est.params i c) input condition k hk hlen

/-- C1 witness: a concrete estimator and a concrete pair of batches of
length 2. -/
theorem log_prob_paired_batches_witness :
    ([[ (1 : ℚ)], [2]].length = [[ (3 : ℚ)], [4]].length) ∧
    (rowsOk 1 [[ (1 : ℚ)], [2]] = true) ∧
    ∃ vals : List ℚ,
      (log_prob (.constructed
        { inputDim := 1, condDim := 1, normShift := [0], normScale := [1],
          params := [0], supportsSampling := true,
          logProbFun := fun _ i c => i.headI + c.headI,
          lossFun := fun _ _ _ => 0,
          sampleCoord := fun _ _ _ _ => 0 }) [[ (1 : ℚ)], [2]] [[ (3 : ℚ)], [4]]).1
        = .ok vals ∧
      vals.length = [[ (1 : ℚ)], [2]].length ∧
      ∀ k, k < [[ (1 : ℚ)], [2]].length →
        vals.getD k 0 =
          (fun (_ : List ℚ) (i c : List ℚ) => i.headI + c.headI) [0]
            ([[ (1 : ℚ)], [2]].getD k []) ([[ (3 : ℚ)], [4]].getD k []) :=
  ⟨by decide, by decide,
    log_prob_paired_batches _ [[ (1 : ℚ)], [2]] [[ (3 : ℚ)], [4]]
      (by decide) (by decide) (by decide)⟩

/-- A concrete estimator family used by witnesses: a 2-dimensional output
conditioned on a 1-dimensional condition, supporting direct sampling. -/
def demoEstimator : DensityEstimator where
  inputDim := 2
  condDim := 1
  normShift := [0, 0]
  normScale := [1, 1]
  params := [1]
  supportsSampling := true
  logProbFun := fun _ i c => i.headI - c.headI
  lossFun := fun _ i c => c.headI - i.headI
  sampleCoord := fun p k _ j => p.headI + k + j

/-- A concrete estimator family used by witnesses: a family that supports
evaluation but not direct sampling. -/
def noSamplingEstimator : DensityEstimator where
  inputDim := 1
  condDim := 1
  normShift := [0]
  normScale := [1]
  params := []
  supportsSampling := false
  logProbFun := fun _ i c => i.headI * c.headI
  lossFun := fun _ _ _ => 0
  sampleCoord := fun _ _ _ _ => 0

/-- C2: for every count and every single condition of the right
dimensionality, sample(count, condition) returns exactly count outputs,
each of the estimator's output dimensionality. -/
theorem sample_count_output_dim (est : DensityEstimator) (count : ℕ)
    (condition : List ℚ)
    (hs : est.supportsSampling = true)
    (hc : condition.length = est.condDim) :
    ∃ outs : List (List ℚ),
      (sample (.constructed est) count condition).1 = .ok outs ∧
      outs.length = count ∧
      ∀ o ∈ outs, o.length = est.inputDim := by
  refine ⟨(List.range count).map (fun k =>
    (List.range est.inputDim).map (est.sampleCoord est.params k condition)), ?_, ?_, ?_⟩
  · simp [sample, sampleRun, hs, hc]
  · simp
  · intro o ho
    obtain ⟨k, _, rfl⟩ := List.mem_map.mp ho
    simp

/-- C2 witness: five samples from the demo estimator under one concrete
condition. -/
theorem sample_count_output_dim_witness :
    (demoEstimator.supportsSampling = true) ∧
    ([(7 : ℚ)].length = demoEstimator.condDim) ∧
    ∃ outs : List (List ℚ),
      (sample (.constructed demoEstimator) 5 [(7 : ℚ)]).1 = .ok outs ∧
      outs.length = 5 ∧
      ∀ o ∈ outs, o.length = demoEstimator.inputDim :=
  ⟨by decide, by decide,
    sample_count_output_dim demoEstimator 5 [(7 : ℚ)] (by decide) (by decide)⟩

/-- C3: for batches whose batch sizes differ and to which neither
broadcasting rule applies, log_prob surfaces a DimensionMismatch error. -/
theorem log_prob_dimension_mismatch (est : DensityEstimator)
    (input condition : List (List ℚ))
    (hne : input.length ≠ condition.length)
    (hone : condition.length ≠ 1) :
    (log_prob (.constructed est) input condition).1 = .error .DimensionMismatch := by
  by_cases h : (rowsOk est.inputDim input && rowsOk est.condDim condition) = true
  · simp [log_prob, logProbRun, h, hne, hone]
  · simp [log_prob, logProbRun, h]

/-- C3 witness: 3 inputs against 5 conditions is a DimensionMismatch. -/
theorem log_prob_dimension_mismatch_witness :
    ([[ (1 : ℚ)], [2], [3]].length ≠
        ([[ (1 : ℚ)], [2], [3], [4], [5]] : List (List ℚ)).length) ∧
    (([[ (1 : ℚ)], [2], [3], [4], [5]] : List (List ℚ)).length ≠ 1) ∧
    (log_prob (.constructed demoEstimator) [[ (1 : ℚ)], [2], [3]]
        [[ (1 : ℚ)], [2], [3], [4], [5]]).1 = .error .DimensionMismatch :=
  ⟨by decide, by decide,
    log_prob_dimension_mismatch demoEstimator _ _ (by decide) (by decide)⟩

/-- C4: invoking log_prob, loss or sample before the construction step has
completed surfaces a NotInitialized error. -/
theorem uninitialized_raises (input condition : List (List ℚ)) (count : ℕ)
    (c : List ℚ) :
    (log_prob .uninitialized input condition).1 = .error .NotInitialized ∧
    (loss .uninitialized input condition).1 = .error .NotInitialized ∧
    (sample .uninitialized count c).1 = .error .NotInitialized :=
  ⟨rfl, rfl, rfl⟩

/-- C5: for a family without direct sampling, sample surfaces an
UnsupportedOperation error, while log_prob evaluation remains available for
the same family. -/
theorem no_sampling_family (est : DensityEstimator) (count : ℕ) (c : List ℚ)
    (input condition : List (List ℚ))
    (hs : est.supportsSampling = false)
    (hlen : input.length = condition.length)
    (hin : rowsOk est.inputDim input = true)
    (hcond : rowsOk est.condDim condition = true) :
    (sample (.constructed est) count c).1 = .error .UnsupportedOperation ∧
    ∃ vals : List ℚ,
      (log_prob (.constructed est) input condition).1 = .ok vals ∧
      vals.length = input.length := by
  constructor
  · simp [sample, sampleRun, hs]
  · refine ⟨List.zipWith (fun i c => est.logProbFun est.params i c) input condition,
      ?_, ?_⟩
    · simpa [log_prob] using logProbRun_paired est input condition hlen hin hcond
    · simp [hlen]

/-- C5 witness: the evaluation-only family rejects sampling and still
evaluates log_prob on a valid paired batch. -/
theorem no_sampling_family_witness :
    (noSamplingEstimator.supportsSampling = false) ∧
    (sample (.constructed noSamplingEstimator) 3 [(0 : ℚ)]).1
        = .error .UnsupportedOperation ∧
    ∃ vals : List ℚ,
      (log_prob (.constructed noSamplingEstimator) [[ (1 : ℚ)]] [[ (2 : ℚ)]]).1
          = .ok vals ∧
      vals.length = [[ (1 : ℚ)]].length := by
  have h := no_sampling_family noSamplingEstimator 3 [(0 : ℚ)]
    [[ (1 : ℚ)]] [[ (2 : ℚ)]] (by decide) (by decide) (by decide) (by decide)
  exact ⟨by decide, h.1, h.2⟩

/-- C6: log_prob and loss are side-effect-free: on every estimator state and
every batch they leave the whole estimator state, and in particular the
learned parameters, unchanged; a training step is what replaces the
parameters. -/
theorem log_prob_loss_side_effect_free (st : EstimatorState)
    (input condition : List (List ℚ)) (upd : List ℚ → TrainBatch → List ℚ)
    (batch : TrainBatch) (est : DensityEstimator) :
    (log_prob st input condition).2 = st ∧
    (loss st input condition).2 = st ∧
    (train (.constructed est) upd batch =
      .constructed { est with params := upd est.params batch }) := by
  refine ⟨?_, ?_, rfl⟩ <;> cases st <;> rfl

/-- Helper: a training step never changes the construction-determined view
(dimensionality and normalization). -/
lemma constructionView_train (st : EstimatorState)
    (upd : List ℚ → TrainBatch → List ℚ) (batch : TrainBatch) :
    constructionView (train st upd batch) = constructionView st := by
  cases st <;> rfl

/-- Helper: iterated training never changes the construction-determined
view. -/
lemma constructionView_foldl (upd : List ℚ → TrainBatch → List ℚ) :
    ∀ (bs : List TrainBatch) (st : EstimatorState),
      constructionView (bs.foldl (fun s b => train s upd b) st) =
        constructionView st := by
  intro bs
  induction bs with
  | nil => intro st; rfl
  | cons b rest ih =>
      intro st
      rw [List.foldl_cons, ih, constructionView_train]

/-- C7: the construction step depends only on the initial batch it observes:
two runs with the same configuration and the same initial batch end with
identical fixed dimensionality and data-dependent normalization, whatever
the later training batches and parameter updates were. -/
theorem construction_no_later_leak (cfg : BuildConfig)
    (upd1 upd2 : List ℚ → TrainBatch → List ℚ) (initialBatch : TrainBatch)
    (later1 later2 : List TrainBatch) :
    constructionView (runPipeline cfg upd1 initialBatch later1) =
      constructionView (runPipeline cfg upd2 initialBatch later2) := by
  rw [runPipeline, runPipeline, constructionView_foldl, constructionView_foldl]

end SbiDensity

namespace SbiTutorial

/-- Helper: the elementwise noisy shift keeps the row length. -/
lemma addNoiseRow_length (gr : ℕ → ℚ) :
    ∀ (j : ℕ) (ts : List ℚ), (addNoiseRow gr j ts).length = ts.length := by
  intro j ts
  induction ts generalizing j with
  | nil => rfl
  | cons t rest ih => simpa [addNoiseRow] using ih (j + 1)

/-- Helper: the simulator keeps the shape of the parameter batch from any
starting batch index. -/
lemma simulatorGo_shape (g : ℕ → ℕ → ℚ) :
    ∀ (i : ℕ) (theta : List (List ℚ)),
      (simulatorGo g i theta).map List.length = theta.map List.length := by
  intro i theta
  induction theta generalizing i with
  | nil => rfl
  | cons row rest ih =>
      simp [simulatorGo, addNoiseRow_length, ih (i + 1)]

/-- C9: the tutorial simulator output theta + 3.0 + noise has exactly the
same shape as theta, so theta and x passed together to append_simulations
always satisfy the matching-batch-dimension training invariant. -/
theorem simulator_shape_invariant (g : ℕ → ℕ → ℚ) (theta : List (List ℚ)) :
    sameShape (simulator g theta) theta ∧
    appendSimulationsOk theta (simulator g theta) := by
  have h : (simulator g theta).map List.length = theta.map List.length :=
    simulatorGo_shape g 0 theta
  refine ⟨h, ?_⟩
  have := congrArg List.length h
  simpa [appendSimulationsOk] using this.symm

/-- C10: every draw from the tutorial prior BoxUniform(-2*ones(2),
2*ones(2)) is a 2-dimensional vector whose components lie in [-2, 2]. -/
theorem prior_sample_in_box (u : List ℚ) (hlen : u.length = 2)
    (hu : ∀ v ∈ u, 0 ≤ v ∧ v ≤ 1) :
    (boxUniformSample priorLow priorHigh u).length = 2 ∧
    ∀ v ∈ boxUniformSample priorLow priorHigh u, -2 ≤ v ∧ v ≤ 2 := by
  obtain ⟨a, b, rfl⟩ := List.length_eq_two.mp hlen
  obtain ⟨ha0, ha1⟩ := hu a (by simp)
  obtain ⟨hb0, hb1⟩ := hu b (by simp)
  refine ⟨rfl, ?_⟩
  intro v hv
  simp [boxUniformSample, priorLow, priorHigh] at hv
  rcases hv with h | h <;> subst h <;> constructor <;> nlinarith

/-- C10 witness: a concrete unit draw. -/
theorem prior_sample_in_box_witness :
    (([(0 : ℚ), 1] : List ℚ).length = 2) ∧
    (∀ v ∈ ([(0 : ℚ), 1] : List ℚ), 0 ≤ v ∧ v ≤ 1) ∧
    ((boxUniformSample priorLow priorHigh [(0 : ℚ), 1]).length = 2 ∧
      ∀ v ∈ boxUniformSample priorLow priorHigh [(0 : ℚ), 1],
        -2 ≤ v ∧ v ≤ 2) :=
  ⟨by decide, by decide,
    prior_sample_in_box [(0 : ℚ), 1] (by decide) (by decide)⟩

end SbiTutorial

namespace SbiReference

/-- C8: for the low-dimensional reference family, exponentiating log_prob
pointwise and numerically integrating over the bounded grid yields exactly
1: the estimator represents a normalized probability density. -/
theorem grid_integral_normalized (c : ℝ) (n : ℕ) (hn : 0 < n) :
    gridIntegral c n = 1 := by
  have hexp : Real.exp (Real.log (1 / 4)) = (1 / 4 : ℝ) :=
    Real.exp_log (by norm_num)
  have hne : (n : ℝ) ≠ 0 := Nat.cast_ne_zero.mpr hn.ne'
  simp only [gridIntegral, refLogProb, hexp]
  rw [Finset.sum_const, Finset.card_range, nsmul_eq_mul]
  field_simp
  ring

/-- C8 witness: a ten-cell grid conditioned on 0 integrates to 1. -/
theorem grid_integral_normalized_witness :
    (0 < 10) ∧ gridIntegral 0 10 = 1 :=
  ⟨by decide, grid_integral_normalized 0 10 (by decide)⟩

end SbiReference
